import Mathlib

/-!
Verification of the cloudman autoscaling engine and web-signal glue.

The repository's web tier (`clusterman/views.py`), its test suite
(`clusterman/tests/test_cluster_api.py`) and the helmsman service layer
(`helmsman/api.py`) are embedded from source.  The scale-decision engine
itself (`clusterman/api.py`, the `Cluster.scaleup` / `Cluster.scaledown`
operations and the backing models) is not part of the provided sources —
only its callers and tests are — so it is modelled from the specification
(sections 3, 4.1 and 4.2), as noted on each such definition.
-/

namespace Cloudman

/-- Modelled from the spec: lifecycle states of a `Node`
(`clusterman` models are not in the provided sources). -/
inductive NodeState where
  | PENDING
  | ACTIVE
  | DRAINING
  | DELETING
  | DELETED
deriving DecidableEq

/-- Modelled from the spec: an `AutoscalerPolicy` record
(`clusterman` models are not in the provided sources).  Belongs to a
cluster; `zone = none` means the unzoned/default policy. -/
structure AutoscalerPolicy where
  id : Nat
  name : String
  vm_type : String
  zone : Option String
  min_nodes : Nat
  max_nodes : Nat
deriving DecidableEq

/-- Modelled from the spec: a `Node` record
(`clusterman` models are not in the provided sources).  `policy = none`
marks a manually provisioned node. -/
structure Node where
  id : Nat
  policy : Option Nat
  vm_type : String
  zone : Option String
  state : NodeState
  created_at : Nat
deriving DecidableEq

/-- Modelled from the spec: a `Cluster` snapshot with its policies and
node inventory (`clusterman` models are not in the provided sources).
`next_id` is the id/creation-time counter for freshly provisioned
nodes. -/
structure Cluster where
  autoscale_enabled : Bool
  policies : List AutoscalerPolicy
  nodes : List Node
  next_id : Nat
deriving DecidableEq

/-- Direction of a scale signal. -/
inductive Direction where
  | UP
  | DOWN
deriving DecidableEq

/-- No-op reasons of the decision engine (spec section 4.1). -/
inductive NoOpReason where
  | AUTOSCALE_DISABLED
  | NO_MATCHING_POLICY
  | AT_MAX
  | AT_MIN
deriving DecidableEq

/-- A decision of the engine: a no-op with reason, a node creation for a
policy, or the deletion of one candidate node. -/
inductive Decision where
  | noop (reason : NoOpReason)
  | create (policyId : Nat) (vm_type : String) (zone : Option String)
  | delete (nodeId : Nat)
deriving DecidableEq

/-- Modelled from the spec (section 4.1, `clusterman/api.py` is not in the
provided sources): zone resolution — the policy with the signal's exact
zone if one exists, else the cluster's unzoned default policy, else
none. -/
def resolvePolicy (policies : List AutoscalerPolicy) (zone : Option String) :
    Option AutoscalerPolicy :=
  match policies.find? (fun p => p.zone == zone) with
  | some p => some p
  | none => policies.find? (fun p => p.zone == none)

/-- Modelled from the spec (section 4.1): the number of nodes attributed
to the policy with id `pid` — `owned = count(nodes where node.policy ==
resolved_policy)`. -/
def countOwned (nodes : List Node) (pid : Nat) : Nat :=
  (nodes.filter (fun n => n.policy == some pid)).length

/-- The more recently created of two nodes (the first on a tie). -/
def moreRecent (a b : Node) : Node :=
  if b.created_at ≤ a.created_at then a else b

/-- Modelled from the spec (section 4.1): the DOWN candidate — the
most-recently-created node owned by the policy (LIFO tie-break). -/
def selectCandidate (nodes : List Node) (pid : Nat) : Option Node :=
  match nodes.filter (fun n => n.policy == some pid) with
  | [] => none
  | n :: rest => some (rest.foldl moreRecent n)

/-- Modelled from the spec (section 4.1, `decide(cluster, signal)` of
`clusterman/api.py` is not in the provided sources): gate on
`autoscale_enabled`, resolve the policy by zone, then bound-check the
owned count and emit a create / delete / no-op decision. -/
def decideScale (c : Cluster) (dir : Direction) (zone : Option String) :
    Decision :=
  if c.autoscale_enabled = false then .noop .AUTOSCALE_DISABLED
  else
    match resolvePolicy c.policies zone with
    | none => .noop .NO_MATCHING_POLICY
    | some p =>
      match dir with
      | .UP =>
        if p.max_nodes ≤ countOwned c.nodes p.id then .noop .AT_MAX
        else .create p.id p.vm_type p.zone
      | .DOWN =>
        if countOwned c.nodes p.id ≤ p.min_nodes then .noop .AT_MIN
        else
          match selectCandidate c.nodes p.id with
          | some n => .delete n.id
          | none => .noop .AT_MIN

/-- Modelled from the spec (section 6): the external node-lifecycle
gateway.  `provision` returns a backend node id or fails with `none`;
`deleteOk`/`drainOk` tell whether the respective call succeeds. -/
structure NodeLifecycleGateway where
  provision : String → Option String → Option Nat
  deleteOk : Nat → Bool
  drainOk : Nat → Bool

/-- A gateway on which every lifecycle call succeeds. -/
def okGateway : NodeLifecycleGateway :=
  { provision := fun _ _ => some 0
    deleteOk := fun _ => true
    drainOk := fun _ => true }

/-- Result of executing a decision (spec section 4.2). -/
inductive ExecResult where
  | notApplied (reason : NoOpReason)
  | created (nodeId : Nat)
  | deleted (nodeId : Nat)
  | provisioningError
  | deletionError (nodeId : Nat)
deriving DecidableEq

/-- Modelled from the spec (section 4.2, the `ScaleExecutor` of
`clusterman/api.py` is not in the provided sources): no-ops return
unchanged; CREATE inserts a PENDING node tagged with the policy only
after the gateway provision succeeds, otherwise the inventory is
untouched and the result is a provisioning error; DELETE removes the
candidate from the inventory on gateway success (drain is best-effort and
has no inventory effect) and leaves it DRAINING on failure. -/
def execute (gw : NodeLifecycleGateway) (c : Cluster) (d : Decision) :
    Cluster × ExecResult :=
  match d with
  | .noop r => (c, .notApplied r)
  | .create pid vt z =>
    match gw.provision vt z with
    | none => (c, .provisioningError)
    | some _backendId =>
      ({ c with
          nodes := c.nodes ++
            [{ id := c.next_id, policy := some pid, vm_type := vt, zone := z
               state := .PENDING, created_at := c.next_id }],
          next_id := c.next_id + 1 },
       .created c.next_id)
  | .delete nid =>
    if gw.deleteOk nid then
      ({ c with nodes := c.nodes.filter (fun n => n.id != nid) },
       .deleted nid)
    else
      ({ c with nodes := (c.nodes.map
          (fun n => if n.id = nid then { n with state := .DRAINING } else n)) },
       .deletionError nid)

/-- Modelled from the spec: one scale signal, decided and executed
against a cluster snapshot. -/
def scaleSignal (gw : NodeLifecycleGateway) (c : Cluster) (dir : Direction)
    (zone : Option String) : Cluster × ExecResult :=
  execute gw c (decideScale c dir zone)

/-- Run a sequence of scale signals, threading the cluster state. -/
def runSignals (gw : NodeLifecycleGateway) (c : Cluster) :
    List (Direction × Option String) → Cluster
  | [] => c
  | s :: rest => runSignals gw (scaleSignal gw c s.1 s.2).1 rest

/-- The manually provisioned nodes of an inventory (no policy tag). -/
def manualNodes (nodes : List Node) : List Node :=
  nodes.filter (fun n => n.policy == none)

/-- Well-formedness of a cluster snapshot: policy ids are distinct, node
ids are distinct, and every node id is below the fresh-id counter. -/
def Cluster.WF (c : Cluster) : Prop :=
  (c.policies.map (fun p => p.id)).Nodup ∧
  (c.nodes.map (fun n => n.id)).Nodup ∧
  ∀ n ∈ c.nodes, n.id < c.next_id

instance (c : Cluster) : Decidable c.WF := by
  unfold Cluster.WF
  infer_instance

/-- Concrete fixture: the default autoscaler of the test suite,
`min_nodes = 1`, `max_nodes = 2`, unzoned. -/
def p1ex : AutoscalerPolicy :=
  { id := 1, name := "default", vm_type := "m1.medium", zone := none
    min_nodes := 1, max_nodes := 2 }

/-- Concrete fixture: a fresh cluster with only `p1ex`. -/
def c1ex : Cluster :=
  { autoscale_enabled := true, policies := [p1ex], nodes := [], next_id := 0 }

/-- Concrete fixture: a manually provisioned node (no policy tag). -/
def manual0 : Node :=
  { id := 0, policy := none, vm_type := "m1.medium", zone := none
    state := .ACTIVE, created_at := 0 }

/-- Concrete fixture: an autoscaler with `min_nodes = 0`, `max_nodes = 2`. -/
def p2ex : AutoscalerPolicy :=
  { id := 1, name := "default", vm_type := "m1.medium", zone := none
    min_nodes := 0, max_nodes := 2 }

/-- Concrete fixture: a cluster holding one manual node and `p2ex`. -/
def c2ex : Cluster :=
  { autoscale_enabled := true, policies := [p2ex], nodes := [manual0]
    next_id := 1 }

/-! ### Further concrete fixtures -/

/-- Concrete fixture: a cluster like `c1ex` but already holding one node
owned by its policy, so the owned count 1 lies within [1, 2]. -/
def c1w : Cluster :=
  { autoscale_enabled := true, policies := [p1ex]
    nodes := [{ id := 0, policy := some 1, vm_type := "m1.medium"
                zone := none, state := .ACTIVE, created_at := 0 }]
    next_id := 1 }

/-- Concrete fixture: `c1ex` with autoscaling disabled. -/
def c3w : Cluster :=
  { autoscale_enabled := false, policies := [p1ex], nodes := []
    next_id := 0 }

/-- Concrete fixture: a zoned autoscaler for zone us-east-1c, as in the
zone-group test. -/
def pZc : AutoscalerPolicy :=
  { id := 2, name := "secondary", vm_type := "m1.medium"
    zone := some "us-east-1c", min_nodes := 0, max_nodes := 2 }

/-- Concrete fixture: a cluster holding both the zoned policy `pZc` and
the unzoned default `p1ex`. -/
def czones : Cluster :=
  { autoscale_enabled := true, policies := [pZc, p1ex], nodes := []
    next_id := 0 }

/-- Concrete fixture: a cluster whose only policy is zoned, so a signal
for an unknown zone matches nothing. -/
def czonly : Cluster :=
  { autoscale_enabled := true, policies := [pZc], nodes := [], next_id := 0 }

/-- Concrete fixture: an owned node created at time 1. -/
def nodeT1 : Node :=
  { id := 1, policy := some 1, vm_type := "m1.medium", zone := none
    state := .ACTIVE, created_at := 1 }

/-- Concrete fixture: an owned node created at time 2 (more recent). -/
def nodeT2 : Node :=
  { id := 2, policy := some 1, vm_type := "m1.medium", zone := none
    state := .ACTIVE, created_at := 2 }

/-- Concrete fixture: a cluster owning `nodeT1` and `nodeT2` under
`p2ex`, already at the max bound of 2. -/
def c6w : Cluster :=
  { autoscale_enabled := true, policies := [p2ex]
    nodes := [nodeT1, nodeT2], next_id := 3 }

/-- A gateway whose provision call always fails. -/
def failGateway : NodeLifecycleGateway :=
  { provision := fun _ _ => none
    deleteOk := fun _ => true
    drainOk := fun _ => true }

/-! ### Web tier: the scale-signal views of `clusterman/views.py` -/

/-- The validated Prometheus webhook payload as consulted by the
scale-signal views: only the `commonLabels` object is read, an optional
string-to-string mapping (absent when the key is missing from
`validated_data`). -/
structure PrometheusWebhookData where
  commonLabels : Option (List (String × String))
deriving DecidableEq

/-- From `ClusterScaleUpSignalViewSet.perform_create`
(`clusterman/views.py` lines 104-105): the zone forwarded to scale-up,
`validated_data.get(commonLabels, default empty).get(availability_zone)`. -/
def zoneNameUp (d : PrometheusWebhookData) : Option String :=
  (d.commonLabels.getD []).lookup "availability_zone"

/-- From `ClusterScaleDownSignalViewSet.perform_create`
(`clusterman/views.py` lines 133-134): the zone forwarded to scale-down,
computed by the same expression as in the scale-up viewset. -/
def zoneNameDown (d : PrometheusWebhookData) : Option String :=
  (d.commonLabels.getD []).lookup "availability_zone"

/-- From `ClusterScaleUpSignalViewSet.perform_create`
(`clusterman/views.py` lines 110-114): look the cluster up by the request
cluster id; on a hit forward the extracted zone to the cluster scale-up
operation and record the updated cluster, on a miss return None without
scaling anything. -/
def performCreateUp (gw : NodeLifecycleGateway)
    (clusters : List (Nat × Cluster)) (cluster_pk : Nat)
    (d : PrometheusWebhookData) :
    List (Nat × Cluster) × Option ExecResult :=
  match clusters.lookup cluster_pk with
  | some c =>
    ((clusters.map (fun kv =>
        if kv.1 = cluster_pk
        then (kv.1, (scaleSignal gw c .UP (zoneNameUp d)).1) else kv)),
     some (scaleSignal gw c .UP (zoneNameUp d)).2)
  | none => (clusters, none)

/-- From `ClusterScaleDownSignalViewSet.perform_create`
(`clusterman/views.py` lines 139-143): the scale-down counterpart of
`performCreateUp`. -/
def performCreateDown (gw : NodeLifecycleGateway)
    (clusters : List (Nat × Cluster)) (cluster_pk : Nat)
    (d : PrometheusWebhookData) :
    List (Nat × Cluster) × Option ExecResult :=
  match clusters.lookup cluster_pk with
  | some c =>
    ((clusters.map (fun kv =>
        if kv.1 = cluster_pk
        then (kv.1, (scaleSignal gw c .DOWN (zoneNameDown d)).1) else kv)),
     some (scaleSignal gw c .DOWN (zoneNameDown d)).2)
  | none => (clusters, none)

/-- Concrete fixture: a payload whose commonLabels carry
availability_zone us-east-1c, as in the second-zone test signal. -/
def dZone : PrometheusWebhookData :=
  { commonLabels := some
      [("alertname", "KubeCPUOvercommit"), ("availability_zone", "us-east-1c")] }

/-- Concrete fixture: a payload with commonLabels but no
availability_zone label, as in the default test signal. -/
def dNoZone : PrometheusWebhookData :=
  { commonLabels := some
      [("alertname", "KubeCPUOvercommit"), ("severity", "critical")] }

/-- Concrete fixture: a payload with no commonLabels object at all. -/
def dNoLabels : PrometheusWebhookData :=
  { commonLabels := none }

/-! ### Helmsman: `HMNamespaceService` of `helmsman/api.py` -/

/-- A namespace record as listed by the kubectl client and wrapped by
`KubectlNamespace` (helmsman/api.py lines 243-249): name, status, age. -/
structure KubectlNamespace where
  name : String
  status : String
  age : String
deriving DecidableEq

/-- The state of the Kubernetes cluster as seen through the namespaces
collection of `KubernetesClient()`. -/
structure KubernetesClientState where
  namespaces : List KubectlNamespace
deriving DecidableEq

/-- A client whose namespaces.create(namespace) call adds one record for
the namespace (the external collaborator used by the witnesses). -/
def clientCreateNamespace (s : KubernetesClientState) (ns : String) :
    KubernetesClientState :=
  { namespaces := s.namespaces ++
      [{ name := ns, status := "Active", age := "0s" }] }

/-- The errors of `helmsman/api.py` relevant here, each carrying the
namespace concerned. -/
inductive HelmsmanError where
  | NamespaceExists (ns : String)
  | NamespaceNotFound (ns : String)
deriving DecidableEq

namespace HMNamespaceService

/-- From `HMNamespaceService.list` (helmsman/api.py lines 89-91): the
namespaces reported by the client. -/
def list (s : KubernetesClientState) : List KubectlNamespace :=
  s.namespaces

/-- From `HMNamespaceService.get` (helmsman/api.py lines 93-95): the
first listed namespace with the given name, else None. -/
def get (s : KubernetesClientState) (ns : String) :
    Option KubectlNamespace :=
  (list s).find? (fun n => n.name == ns)

/-- From `HMNamespaceService.create` (helmsman/api.py lines 97-105):
if get(namespace) finds an existing namespace, raise
NamespaceExistsException without touching the client; else call
client.namespaces.create(namespace) and return get(namespace) on the
resulting state.  The client create call is a parameter, as the
Kubernetes client is an external collaborator. -/
def create
    (clientCreate : KubernetesClientState → String → KubernetesClientState)
    (s : KubernetesClientState) (ns : String) :
    KubernetesClientState × Except HelmsmanError (Option KubectlNamespace) :=
  match get s ns with
  | some _existing => (s, .error (.NamespaceExists ns))
  | none => (clientCreate s ns, .ok (get (clientCreate s ns) ns))

end HMNamespaceService

/-- Concrete fixture: an empty Kubernetes cluster state. -/
def sEmpty : KubernetesClientState :=
  { namespaces := [] }

/-- Concrete fixture: an existing namespace record named galaxy. -/
def nsGalaxy : KubectlNamespace :=
  { name := "galaxy", status := "Active", age := "1d" }

/-- Concrete fixture: a cluster state already holding `nsGalaxy`. -/
def sHas : KubernetesClientState :=
  { namespaces := [nsGalaxy] }

/-! ### Auxiliary lemmas about the engine -/

theorem resolvePolicy_mem {policies : List AutoscalerPolicy}
    {zone : Option String} {p : AutoscalerPolicy}
    (h : resolvePolicy policies zone = some p) : p ∈ policies := by
  unfold resolvePolicy at h
  cases hfind : policies.find? (fun q => q.zone == zone) with
  | some q =>
    rw [hfind] at h
    cases h
    exact List.mem_of_find?_eq_some hfind
  | none =>
    rw [hfind] at h
    exact List.mem_of_find?_eq_some h

theorem countOwned_append (l : List Node) (n : Node) (pid : Nat) :
    countOwned (l ++ [n]) pid =
      countOwned l pid + (if n.policy == some pid then 1 else 0) := by
  unfold countOwned
  rw [List.filter_append]
  cases h : (n.policy == some pid) <;> simp [List.filter, h]

theorem countOwned_map_policy (l : List Node) (f : Node → Node)
    (hf : ∀ n, (f n).policy = n.policy) (pid : Nat) :
    countOwned (l.map f) pid = countOwned l pid := by
  induction l with
  | nil => rfl
  | cons a t ih =>
    simp only [List.map_cons]
    unfold countOwned at ih ⊢
    simp only [List.filter_cons, hf a]
    cases h : (a.policy == some pid) <;> simp [h, ih]

theorem countOwned_filter_le (l : List Node) (q : Node → Bool) (pid : Nat) :
    countOwned (l.filter q) pid ≤ countOwned l pid := by
  unfold countOwned
  exact List.Sublist.length_le
    (List.Sublist.filter _ (List.filter_sublist l))

theorem countOwned_filter_ne_id (l : List Node) (n : Node) (hn : n ∈ l)
    (hid : (l.map (fun x => x.id)).Nodup) (pid : Nat) :
    countOwned l pid =
      countOwned (l.filter (fun m => m.id != n.id)) pid +
      (if n.policy == some pid then 1 else 0) := by
  induction l with
  | nil => cases hn
  | cons a t ih =>
    simp only [List.map_cons, List.nodup_cons] at hid
    obtain ⟨ha, ht⟩ := hid
    rcases List.mem_cons.mp hn with rfl | hmem
    · have hfilter : t.filter (fun m => m.id != n.id) = t := by
        apply List.filter_eq_self.mpr
        intro m hm
        have : m.id ≠ n.id := by
          intro hcontra
          exact ha (hcontra ▸ List.mem_map_of_mem (fun x => x.id) hm)
        simpa using this
      unfold countOwned
      simp only [List.filter_cons, bne_self_eq_false]
      simp only [cond_false, Bool.false_eq_true, if_false]
      rw [hfilter]
      cases h : (n.policy == some pid) <;> simp [h, Nat.add_comm]
    · have haid : a.id ≠ n.id := by
        intro hcontra
        exact ha (hcontra ▸ List.mem_map_of_mem (fun x => x.id) hmem)
      have hkeep : (a.id != n.id) = true := by simpa using haid
      unfold countOwned at ih ⊢
      simp only [List.filter_cons, hkeep, if_true]
      cases h : (a.policy == some pid) <;>
        simp [h, ih hmem ht, Nat.add_comm, Nat.add_assoc, Nat.add_left_comm]

theorem moreRecent_eq_or (a b : Node) :
    moreRecent a b = a ∨ moreRecent a b = b := by
  unfold moreRecent
  split <;> simp

theorem le_moreRecent_left (a b : Node) :
    a.created_at ≤ (moreRecent a b).created_at := by
  unfold moreRecent
  split
  · exact le_refl _
  · omega

theorem le_moreRecent_right (a b : Node) :
    b.created_at ≤ (moreRecent a b).created_at := by
  unfold moreRecent
  split
  · assumption
  · exact le_refl _

theorem foldl_moreRecent_mem (l : List Node) (a : Node) :
    l.foldl moreRecent a = a ∨ l.foldl moreRecent a ∈ l := by
  induction l generalizing a with
  | nil => left; rfl
  | cons b t ih =>
    simp only [List.foldl_cons]
    rcases ih (moreRecent a b) with h | h
    · rcases moreRecent_eq_or a b with h2 | h2
      · left; rw [h, h2]
      · right; rw [h, h2]; exact List.mem_cons_self _ _
    · right; exact List.mem_cons_of_mem _ h

theorem le_foldl_moreRecent (l : List Node) (a : Node) :
    a.created_at ≤ (l.foldl moreRecent a).created_at := by
  induction l generalizing a with
  | nil => exact le_refl _
  | cons b t ih =>
    simp only [List.foldl_cons]
    exact le_trans (le_moreRecent_left a b) (ih (moreRecent a b))

theorem mem_le_foldl_moreRecent (l : List Node) (a : Node) :
    ∀ m ∈ l, m.created_at ≤ (l.foldl moreRecent a).created_at := by
  induction l generalizing a with
  | nil => intro m hm; cases hm
  | cons b t ih =>
    intro m hm
    simp only [List.foldl_cons]
    rcases List.mem_cons.mp hm with rfl | hmem
    · exact le_trans (le_moreRecent_right a m) (le_foldl_moreRecent t _)
    · exact ih _ m hmem

theorem selectCandidate_isSome (nodes : List Node) (pid : Nat)
    (h : countOwned nodes pid ≠ 0) :
    ∃ n, selectCandidate nodes pid = some n := by
  unfold countOwned at h
  unfold selectCandidate
  cases hf : nodes.filter (fun n => n.policy == some pid) with
  | nil => rw [hf] at h; simp at h
  | cons a t => exact ⟨_, rfl⟩

theorem selectCandidate_spec (nodes : List Node) (pid : Nat) (n : Node)
    (h : selectCandidate nodes pid = some n) :
    n ∈ nodes ∧ n.policy = some pid ∧
      ∀ m ∈ nodes, m.policy = some pid → m.created_at ≤ n.created_at := by
  unfold selectCandidate at h
  cases hf : nodes.filter (fun m => m.policy == some pid) with
  | nil => rw [hf] at h; cases h
  | cons a t =>
    rw [hf] at h
    injection h with h
    subst h
    have hmemf : t.foldl moreRecent a ∈
        nodes.filter (fun m => m.policy == some pid) := by
      rw [hf]
      rcases foldl_moreRecent_mem t a with h2 | h2
      · rw [h2]; exact List.mem_cons_self _ _
      · exact List.mem_cons_of_mem _ h2
    have hmem := List.mem_of_mem_filter hmemf
    have hpol := List.of_mem_filter hmemf
    refine ⟨hmem, by simpa using hpol, ?_⟩
    intro m hm hmp
    have hmf : m ∈ nodes.filter (fun x => x.policy == some pid) :=
      List.mem_filter.mpr ⟨hm, by simp [hmp]⟩
    rw [hf] at hmf
    rcases List.mem_cons.mp hmf with rfl | hmemt
    · exact le_foldl_moreRecent t m
    · exact mem_le_foldl_moreRecent t a m hmemt

theorem decideScale_disabled {c : Cluster} (dir : Direction)
    (zone : Option String) (h : c.autoscale_enabled = false) :
    decideScale c dir zone = .noop .AUTOSCALE_DISABLED := by
  simp [decideScale, h]

theorem decideScale_no_policy {c : Cluster} (dir : Direction)
    {zone : Option String} (he : c.autoscale_enabled = true)
    (hres : resolvePolicy c.policies zone = none) :
    decideScale c dir zone = .noop .NO_MATCHING_POLICY := by
  simp [decideScale, he, hres]

theorem decideScale_up_at_max {c : Cluster} {zone : Option String}
    {p : AutoscalerPolicy} (he : c.autoscale_enabled = true)
    (hres : resolvePolicy c.policies zone = some p)
    (hmax : p.max_nodes ≤ countOwned c.nodes p.id) :
    decideScale c .UP zone = .noop .AT_MAX := by
  simp [decideScale, he, hres, hmax]

theorem decideScale_up_create {c : Cluster} {zone : Option String}
    {p : AutoscalerPolicy} (he : c.autoscale_enabled = true)
    (hres : resolvePolicy c.policies zone = some p)
    (hmax : countOwned c.nodes p.id < p.max_nodes) :
    decideScale c .UP zone = .create p.id p.vm_type p.zone := by
  simp [decideScale, he, hres, Nat.not_le.mpr hmax]

theorem decideScale_down_at_min {c : Cluster} {zone : Option String}
    {p : AutoscalerPolicy} (he : c.autoscale_enabled = true)
    (hres : resolvePolicy c.policies zone = some p)
    (hmin : countOwned c.nodes p.id ≤ p.min_nodes) :
    decideScale c .DOWN zone = .noop .AT_MIN := by
  simp [decideScale, he, hres, hmin]

theorem decideScale_down_delete {c : Cluster} {zone : Option String}
    {p : AutoscalerPolicy} {n : Node} (he : c.autoscale_enabled = true)
    (hres : resolvePolicy c.policies zone = some p)
    (hmin : p.min_nodes < countOwned c.nodes p.id)
    (hsel : selectCandidate c.nodes p.id = some n) :
    decideScale c .DOWN zone = .delete n.id := by
  simp [decideScale, he, hres, Nat.not_le.mpr hmin, hsel]

theorem decideScale_create_inv {c : Cluster} {dir : Direction}
    {zone : Option String} {pid : Nat} {vt : String} {z : Option String}
    (h : decideScale c dir zone = .create pid vt z) :
    c.autoscale_enabled = true ∧ dir = .UP ∧
      ∃ p, resolvePolicy c.policies zone = some p ∧ p.id = pid ∧
        p.vm_type = vt ∧ p.zone = z ∧
        countOwned c.nodes p.id < p.max_nodes := by
  by_cases he : c.autoscale_enabled = true
  case neg =>
    rw [decideScale_disabled dir zone (by simpa using he)] at h
    cases h
  cases hres : resolvePolicy c.policies zone with
  | none =>
    rw [decideScale_no_policy dir he hres] at h
    cases h
  | some p =>
    cases dir with
    | UP =>
      by_cases hmax : p.max_nodes ≤ countOwned c.nodes p.id
      · rw [decideScale_up_at_max he hres hmax] at h
        cases h
      · rw [decideScale_up_create he hres (by omega)] at h
        injection h with h1 h2 h3
        exact ⟨he, rfl, p, rfl, h1, h2, h3, by omega⟩
    | DOWN =>
      by_cases hmin : countOwned c.nodes p.id ≤ p.min_nodes
      · rw [decideScale_down_at_min he hres hmin] at h
        cases h
      · obtain ⟨n, hsel⟩ :=
          selectCandidate_isSome c.nodes p.id (by omega)
        rw [decideScale_down_delete he hres (by omega) hsel] at h
        cases h

theorem decideScale_delete_inv {c : Cluster} {dir : Direction}
    {zone : Option String} {nid : Nat}
    (h : decideScale c dir zone = .delete nid) :
    c.autoscale_enabled = true ∧ dir = .DOWN ∧
      ∃ p n, resolvePolicy c.policies zone = some p ∧
        p.min_nodes < countOwned c.nodes p.id ∧
        selectCandidate c.nodes p.id = some n ∧ n.id = nid := by
  by_cases he : c.autoscale_enabled = true
  case neg =>
    rw [decideScale_disabled dir zone (by simpa using he)] at h
    cases h
  cases hres : resolvePolicy c.policies zone with
  | none =>
    rw [decideScale_no_policy dir he hres] at h
    cases h
  | some p =>
    cases dir with
    | UP =>
      by_cases hmax : p.max_nodes ≤ countOwned c.nodes p.id
      · rw [decideScale_up_at_max he hres hmax] at h
        cases h
      · rw [decideScale_up_create he hres (by omega)] at h
        cases h
    | DOWN =>
      by_cases hmin : countOwned c.nodes p.id ≤ p.min_nodes
      · rw [decideScale_down_at_min he hres hmin] at h
        cases h
      · obtain ⟨n, hsel⟩ :=
          selectCandidate_isSome c.nodes p.id (by omega)
        rw [decideScale_down_delete he hres (by omega) hsel] at h
        injection h with h1
        exact ⟨he, rfl, p, n, rfl, by omega, hsel, h1⟩

theorem execute_noop (gw : NodeLifecycleGateway) (c : Cluster)
    (r : NoOpReason) : execute gw c (.noop r) = (c, .notApplied r) := rfl

theorem execute_policies (gw : NodeLifecycleGateway) (c : Cluster)
    (d : Decision) : (execute gw c d).1.policies = c.policies := by
  cases d with
  | noop r => rfl
  | create pid vt z =>
    simp only [execute]
    cases h : gw.provision vt z <;> simp [h]
  | delete nid =>
    simp only [execute]
    split <;> rfl

theorem execute_enabled (gw : NodeLifecycleGateway) (c : Cluster)
    (d : Decision) :
    (execute gw c d).1.autoscale_enabled = c.autoscale_enabled := by
  cases d with
  | noop r => rfl
  | create pid vt z =>
    simp only [execute]
    cases h : gw.provision vt z <;> simp [h]
  | delete nid =>
    simp only [execute]
    split <;> rfl

theorem WF_execute (gw : NodeLifecycleGateway) (c : Cluster) (d : Decision)
    (hWF : c.WF) : (execute gw c d).1.WF := by
  obtain ⟨hpol, hnode, hlt⟩ := hWF
  cases d with
  | noop r => exact ⟨hpol, hnode, hlt⟩
  | create pid vt z =>
    cases hp : gw.provision vt z with
    | none => simpa [execute, hp] using ⟨hpol, hnode, hlt⟩
    | some bid =>
      simp only [execute, hp]
      refine ⟨hpol, ?_, ?_⟩
      · simp only [List.map_append, List.map_cons, List.map_nil]
        have hperm := List.perm_append_singleton c.next_id
          (c.nodes.map (fun n => n.id))
        rw [List.Perm.nodup_iff hperm, List.nodup_cons]
        refine ⟨?_, hnode⟩
        intro hmem
        obtain ⟨m, hm, hmid⟩ := List.mem_map.mp hmem
        have := hlt m hm
        omega
      · intro n hn
        rcases List.mem_append.mp hn with hmem | hmem
        · exact Nat.lt_trans (hlt n hmem) (Nat.lt_succ_self _)
        · simp only [List.mem_cons, List.not_mem_nil, or_false] at hmem
          subst hmem
          exact Nat.lt_succ_self _
  | delete nid =>
    by_cases hok : gw.deleteOk nid
    · simp only [execute, hok, if_true]
      refine ⟨hpol, ?_, ?_⟩
      · exact List.Nodup.sublist
          (List.Sublist.map _ (List.filter_sublist c.nodes)) hnode
      · intro n hn
        exact hlt n (List.mem_of_mem_filter hn)
    · have hok2 : gw.deleteOk nid = false := by simpa using hok
      simp only [execute, hok2, Bool.false_eq_true, if_false]
      refine ⟨hpol, ?_, ?_⟩
      · have hmap : (c.nodes.map
            (fun n => if n.id = nid then { n with state := .DRAINING } else n)).map
              (fun n => n.id) = c.nodes.map (fun n => n.id) := by
          rw [List.map_map]
          apply List.map_congr_left
          intro n _
          by_cases hid : n.id = nid <;> simp [Function.comp, hid]
        rw [hmap]
        exact hnode
      · intro n hn
        obtain ⟨m, hm, hmn⟩ := List.mem_map.mp hn
        have hid : n.id = m.id := by
          subst hmn
          by_cases hid : m.id = nid <;> simp [hid]
        rw [hid]
        exact hlt m hm

theorem WF_scaleSignal (gw : NodeLifecycleGateway) (c : Cluster)
    (dir : Direction) (z : Option String) (hWF : c.WF) :
    (scaleSignal gw c dir z).1.WF :=
  WF_execute gw c _ hWF

theorem policies_scaleSignal (gw : NodeLifecycleGateway) (c : Cluster)
    (dir : Direction) (z : Option String) :
    (scaleSignal gw c dir z).1.policies = c.policies :=
  execute_policies gw c _

theorem enabled_scaleSignal (gw : NodeLifecycleGateway) (c : Cluster)
    (dir : Direction) (z : Option String) :
    (scaleSignal gw c dir z).1.autoscale_enabled = c.autoscale_enabled :=
  execute_enabled gw c _

theorem count_bounds_step (gw : NodeLifecycleGateway) (c : Cluster)
    (hWF : c.WF) (p : AutoscalerPolicy) (hp : p ∈ c.policies)
    (hlo : p.min_nodes ≤ countOwned c.nodes p.id)
    (hhi : countOwned c.nodes p.id ≤ p.max_nodes)
    (dir : Direction) (z : Option String) :
    p.min_nodes ≤ countOwned (scaleSignal gw c dir z).1.nodes p.id ∧
      countOwned (scaleSignal gw c dir z).1.nodes p.id ≤ p.max_nodes := by
  obtain ⟨hpolN, hnodeN, hlt⟩ := hWF
  unfold scaleSignal
  cases hd : decideScale c dir z with
  | noop r => rw [execute_noop]; exact ⟨hlo, hhi⟩
  | create pid vt zz =>
    obtain ⟨he, hdir, q, hres, hqid, hqvt, hqz, hqlt⟩ :=
      decideScale_create_inv hd
    cases hp2 : gw.provision vt zz with
    | none => simp only [execute, hp2]; exact ⟨hlo, hhi⟩
    | some bid =>
      simp only [execute, hp2]
      rw [countOwned_append]
      by_cases hideq : pid = p.id
      · have hqmem := resolvePolicy_mem hres
        have hqp : q = p :=
          List.inj_on_of_nodup_map hpolN hqmem hp (by rw [hqid, hideq])
        subst hqp
        rw [hqid, hideq] at hqlt
        simp only [hideq, beq_self_eq_true, if_true]
        rw [hqid, hideq] at *
        constructor <;> omega
      · have hne : (some pid == some p.id) = false := by
          simp [hideq]
        simp only [hne, Bool.false_eq_true, if_false, Nat.add_zero]
        exact ⟨hlo, hhi⟩
  | delete nid =>
    obtain ⟨he, hdir, q, n, hres, hqmin, hsel, hnid⟩ :=
      decideScale_delete_inv hd
    obtain ⟨hnmem, hnpol, hnmax⟩ := selectCandidate_spec _ _ _ hsel
    subst hnid
    by_cases hok : gw.deleteOk n.id
    · simp only [execute, hok, if_true]
      have heq := countOwned_filter_ne_id c.nodes n hnmem hnodeN p.id
      by_cases hideq : q.id = p.id
      · have hqmem := resolvePolicy_mem hres
        have hqp : q = p := List.inj_on_of_nodup_map hpolN hqmem hp hideq
        subst hqp
        have heq2 : countOwned c.nodes q.id =
            countOwned (List.filter (fun m => m.id != n.id) c.nodes) q.id
              + 1 := by
          simpa [hnpol] using heq
        constructor <;> omega
      · have heq2 : countOwned c.nodes p.id =
            countOwned (List.filter (fun m => m.id != n.id) c.nodes) p.id := by
          simpa [hnpol, hideq] using heq
        constructor <;> omega
    · have hok2 : gw.deleteOk n.id = false := by simpa using hok
      simp only [execute, hok2, Bool.false_eq_true, if_false]
      rw [countOwned_map_policy]
      · exact ⟨hlo, hhi⟩
      · intro m
        by_cases hid : m.id = n.id <;> simp [hid]

theorem count_bounds_run (gw : NodeLifecycleGateway) (c : Cluster)
    (hWF : c.WF) (p : AutoscalerPolicy) (hp : p ∈ c.policies)
    (hlo : p.min_nodes ≤ countOwned c.nodes p.id)
    (hhi : countOwned c.nodes p.id ≤ p.max_nodes)
    (sigs : List (Direction × Option String)) :
    p.min_nodes ≤ countOwned (runSignals gw c sigs).nodes p.id ∧
      countOwned (runSignals gw c sigs).nodes p.id ≤ p.max_nodes := by
  induction sigs generalizing c with
  | nil => exact ⟨hlo, hhi⟩
  | cons s rest ih =>
    simp only [runSignals]
    have hstep := count_bounds_step gw c hWF p hp hlo hhi s.1 s.2
    exact ih _ (WF_scaleSignal gw c s.1 s.2 hWF)
      (by rw [policies_scaleSignal]; exact hp) hstep.1 hstep.2

theorem manualNodes_scaleSignal (gw : NodeLifecycleGateway) (c : Cluster)
    (dir : Direction) (z : Option String) (hWF : c.WF) :
    manualNodes (scaleSignal gw c dir z).1.nodes = manualNodes c.nodes := by
  obtain ⟨hpolN, hnodeN, hlt⟩ := hWF
  unfold scaleSignal
  cases hd : decideScale c dir z with
  | noop r => rw [execute_noop]
  | create pid vt zz =>
    cases hp2 : gw.provision vt zz with
    | none => simp [execute, hp2]
    | some bid =>
      simp only [execute, hp2]
      unfold manualNodes
      rw [List.filter_append]
      simp
  | delete nid =>
    obtain ⟨he, hdir, q, n, hres, hqmin, hsel, hnid⟩ :=
      decideScale_delete_inv hd
    obtain ⟨hnmem, hnpol, hnmax⟩ := selectCandidate_spec _ _ _ hsel
    subst hnid
    have hManNe : ∀ m ∈ c.nodes, m.policy = none → m.id ≠ n.id := by
      intro m hm hmpol hcontra
      have hmn : m = n := List.inj_on_of_nodup_map hnodeN hm hnmem hcontra
      rw [hmn, hnpol] at hmpol
      cases hmpol
    by_cases hok : gw.deleteOk n.id
    · simp only [execute, hok, if_true]
      unfold manualNodes
      rw [List.filter_filter]
      apply List.filter_congr
      intro m hm
      cases hmp : (m.policy == none) with
      | false => simp
      | true =>
        have : m.id ≠ n.id := hManNe m hm (by simpa using hmp)
        simpa using this
    · have hok2 : gw.deleteOk n.id = false := by simpa using hok
      simp only [execute, hok2, Bool.false_eq_true, if_false]
      unfold manualNodes
      rw [List.filter_map]
      have hpred : ((fun m : Node => m.policy == none) ∘
          (fun m : Node =>
            if m.id = n.id then { m with state := .DRAINING } else m)) =
          (fun m : Node => m.policy == none) := by
        funext m
        by_cases hid : m.id = n.id <;> simp [Function.comp, hid]
      rw [hpred]
      conv_rhs => rw [← List.map_id
        (c.nodes.filter (fun m => m.policy == none))]
      apply List.map_congr_left
      intro m hm
      have hmpol : m.policy = none := by
        simpa using List.of_mem_filter hm
      have : m.id ≠ n.id := hManNe m (List.mem_of_mem_filter hm) hmpol
      simp [this]

theorem manualNodes_runSignals (gw : NodeLifecycleGateway) (c : Cluster)
    (hWF : c.WF) (sigs : List (Direction × Option String)) :
    manualNodes (runSignals gw c sigs).nodes = manualNodes c.nodes := by
  induction sigs generalizing c with
  | nil => rfl
  | cons s rest ih =>
    simp only [runSignals]
    rw [ih _ (WF_scaleSignal gw c s.1 s.2 hWF),
      manualNodes_scaleSignal gw c s.1 s.2 hWF]

theorem scaleSignal_disabled (gw : NodeLifecycleGateway) (c : Cluster)
    (dir : Direction) (z : Option String)
    (h : c.autoscale_enabled = false) :
    scaleSignal gw c dir z = (c, .notApplied .AUTOSCALE_DISABLED) := by
  unfold scaleSignal
  rw [decideScale_disabled dir z h, execute_noop]

theorem runSignals_disabled (gw : NodeLifecycleGateway) (c : Cluster)
    (h : c.autoscale_enabled = false)
    (sigs : List (Direction × Option String)) :
    runSignals gw c sigs = c := by
  induction sigs with
  | nil => rfl
  | cons s rest ih =>
    simp only [runSignals]
    rw [scaleSignal_disabled gw c s.1 s.2 h]
    exact ih

theorem scaleSignal_at_max (gw : NodeLifecycleGateway) (c : Cluster)
    (z : Option String) (p : AutoscalerPolicy)
    (he : c.autoscale_enabled = true)
    (hres : resolvePolicy c.policies z = some p)
    (hmax : p.max_nodes ≤ countOwned c.nodes p.id) :
    scaleSignal gw c .UP z = (c, .notApplied .AT_MAX) := by
  unfold scaleSignal
  rw [decideScale_up_at_max he hres hmax, execute_noop]

theorem runSignals_at_max (gw : NodeLifecycleGateway) (c : Cluster)
    (z : Option String) (p : AutoscalerPolicy)
    (he : c.autoscale_enabled = true)
    (hres : resolvePolicy c.policies z = some p)
    (hmax : p.max_nodes ≤ countOwned c.nodes p.id) (k : Nat) :
    runSignals gw c (List.replicate k (.UP, z)) = c := by
  induction k with
  | zero => rfl
  | succ k ih =>
    rw [List.replicate_succ]
    simp only [runSignals]
    rw [scaleSignal_at_max gw c z p he hres hmax]
    exact ih

theorem countOwned_scaleSignal_other (gw : NodeLifecycleGateway)
    (c : Cluster) (dir : Direction) (z : Option String) (hWF : c.WF)
    (p : AutoscalerPolicy) (hres : resolvePolicy c.policies z = some p)
    (q : AutoscalerPolicy) (hq : q ∈ c.policies) (hne : q ≠ p) :
    countOwned (scaleSignal gw c dir z).1.nodes q.id =
      countOwned c.nodes q.id := by
  have hpmem := resolvePolicy_mem hres
  obtain ⟨hpolN, hnodeN, hlt⟩ := hWF
  have hqid : q.id ≠ p.id := fun hcontra =>
    hne (List.inj_on_of_nodup_map hpolN hq hpmem hcontra)
  unfold scaleSignal
  cases hd : decideScale c dir z with
  | noop r => rw [execute_noop]
  | create pid vt zz =>
    obtain ⟨he, hdir, r, hres2, hrid, _, _, _⟩ := decideScale_create_inv hd
    have hrp : r = p := by
      rw [hres] at hres2
      injection hres2 with h
      exact h.symm
    cases hp2 : gw.provision vt zz with
    | none => simp [execute, hp2]
    | some bid =>
      simp only [execute, hp2]
      rw [countOwned_append]
      have hpidp : pid = p.id := by rw [← hrid, hrp]
      have : (some pid == some q.id) = false := by
        simp [hpidp]
        omega
      simp [this]
  | delete nid =>
    obtain ⟨he, hdir, r, n, hres2, hrmin, hsel, hnid⟩ :=
      decideScale_delete_inv hd
    have hrp : r = p := by
      rw [hres] at hres2
      injection hres2 with h
      exact h.symm
    subst hrp
    obtain ⟨hnmem, hnpol, hnmax⟩ := selectCandidate_spec _ _ _ hsel
    subst hnid
    by_cases hok : gw.deleteOk n.id
    · simp only [execute, hok, if_true]
      have heq := countOwned_filter_ne_id c.nodes n hnmem hnodeN q.id
      have heq2 : countOwned c.nodes q.id =
          countOwned (List.filter (fun m => m.id != n.id) c.nodes) q.id := by
        have hzero : (n.policy == some q.id) = false := by
          rw [hnpol]
          simp only [beq_eq_false_iff_ne, ne_eq, Option.some.injEq]
          omega
        simpa [hzero] using heq
      exact heq2.symm
    · have hok2 : gw.deleteOk n.id = false := by simpa using hok
      simp only [execute, hok2, Bool.false_eq_true, if_false]
      rw [countOwned_map_policy]
      intro m
      by_cases hid : m.id = n.id <;> simp [hid]

theorem resolvePolicy_exact {ps : List AutoscalerPolicy} {z : String}
    (p : AutoscalerPolicy) (hp : p ∈ ps) (hz : p.zone = some z) :
    ∃ q, resolvePolicy ps (some z) = some q ∧ q.zone = some z := by
  unfold resolvePolicy
  cases hfind : ps.find? (fun q => q.zone == some z) with
  | some q =>
    have hq := List.find?_some hfind
    exact ⟨q, rfl, by simpa using hq⟩
  | none =>
    exfalso
    have := List.find?_eq_none.mp hfind p hp
    simp [hz] at this

theorem resolvePolicy_default {ps : List AutoscalerPolicy} {z : String}
    (hnone : ∀ p ∈ ps, p.zone ≠ some z) (u : AutoscalerPolicy)
    (hu : u ∈ ps) (huz : u.zone = none) :
    ∃ q, resolvePolicy ps (some z) = some q ∧ q.zone = none := by
  unfold resolvePolicy
  have hfind : ps.find? (fun q => q.zone == some z) = none := by
    apply List.find?_eq_none.mpr
    intro p hp
    simpa using hnone p hp
  rw [hfind]
  cases hfind2 : ps.find? (fun q => q.zone == none) with
  | some q =>
    exact ⟨q, rfl, by simpa using List.find?_some hfind2⟩
  | none =>
    exfalso
    have := List.find?_eq_none.mp hfind2 u hu
    simp [huz] at this

theorem resolvePolicy_no_match {ps : List AutoscalerPolicy} {z : String}
    (h : ∀ p ∈ ps, p.zone ≠ some z ∧ p.zone ≠ none) :
    resolvePolicy ps (some z) = none := by
  unfold resolvePolicy
  have hfind : ps.find? (fun q => q.zone == some z) = none := by
    apply List.find?_eq_none.mpr
    intro p hp
    simpa using (h p hp).1
  rw [hfind]
  apply List.find?_eq_none.mpr
  intro p hp
  simpa using (h p hp).2

theorem resolvePolicy_unzoned {ps : List AutoscalerPolicy}
    (u : AutoscalerPolicy) (hu : u ∈ ps) (huz : u.zone = none) :
    ∃ q, resolvePolicy ps none = some q ∧ q.zone = none := by
  unfold resolvePolicy
  cases hfind : ps.find? (fun q => q.zone == none) with
  | some q =>
    exact ⟨q, rfl, by simpa using List.find?_some hfind⟩
  | none =>
    exfalso
    have := List.find?_eq_none.mp hfind u hu
    simp [huz] at this

theorem resolvePolicy_none_no_unzoned {ps : List AutoscalerPolicy}
    (h : ∀ p ∈ ps, p.zone ≠ none) :
    resolvePolicy ps none = none := by
  unfold resolvePolicy
  have hfind : ps.find? (fun q => q.zone == none) = none := by
    apply List.find?_eq_none.mpr
    intro p hp
    simpa using h p hp
  rw [hfind]

/-! ### Claim theorems -/

/-- C1, counterexample to the claim as stated: for the cluster `c1ex`,
whose only policy has `min_nodes = 1` and which owns no node, the signal
sequence consisting of one DOWN signal leaves the owned count at 0,
strictly below `min_nodes` — so `min_nodes ≤ count_owned(P)` does not
hold after every signal sequence. -/
theorem scale_bounds_claim_false :
    ¬ (p1ex.min_nodes ≤
        countOwned (runSignals okGateway c1ex [(.DOWN, none)]).nodes
          p1ex.id) := by
  decide

/-- C1 (amended): for every well-formed cluster, every policy of it
whose owned count initially lies within [min_nodes, max_nodes] keeps the
bounds after any sequence of UP/DOWN signals; an UP signal is an AT_MAX
no-op when owned ≥ max_nodes and a DOWN signal an AT_MIN no-op when
owned ≤ min_nodes; and in the min=1/max=2 scenario three UP signals
yield exactly 2 owned nodes and three further DOWN signals leave
exactly 1. -/
theorem scale_bounds_invariant (gw : NodeLifecycleGateway) (c : Cluster)
    (p : AutoscalerPolicy) (hWF : c.WF) (hp : p ∈ c.policies)
    (hlo : p.min_nodes ≤ countOwned c.nodes p.id)
    (hhi : countOwned c.nodes p.id ≤ p.max_nodes) :
    (∀ sigs, p.min_nodes ≤ countOwned (runSignals gw c sigs).nodes p.id ∧
      countOwned (runSignals gw c sigs).nodes p.id ≤ p.max_nodes) ∧
    (∀ z, c.autoscale_enabled = true →
      resolvePolicy c.policies z = some p →
      (p.max_nodes ≤ countOwned c.nodes p.id →
        decideScale c .UP z = .noop .AT_MAX) ∧
      (countOwned c.nodes p.id ≤ p.min_nodes →
        decideScale c .DOWN z = .noop .AT_MIN)) ∧
    countOwned (runSignals okGateway c1ex
      [(.UP, none), (.UP, none), (.UP, none)]).nodes p1ex.id = 2 ∧
    countOwned (runSignals okGateway c1ex
      [(.UP, none), (.UP, none), (.UP, none),
       (.DOWN, none), (.DOWN, none), (.DOWN, none)]).nodes p1ex.id = 1 := by
  refine ⟨fun sigs => count_bounds_run gw c hWF p hp hlo hhi sigs,
    fun z he hres => ⟨fun hmax => decideScale_up_at_max he hres hmax,
      fun hmin => decideScale_down_at_min he hres hmin⟩,
    by decide, by decide⟩

/-- C1, witness: the amended theorem applied to the concrete cluster
`c1w` (one owned node, bounds [1, 2]) and the sequence UP, DOWN. -/
theorem scale_bounds_invariant_witness :
    p1ex.min_nodes ≤
      countOwned (runSignals okGateway c1w
        [(.UP, none), (.DOWN, none)]).nodes p1ex.id ∧
    countOwned (runSignals okGateway c1w
      [(.UP, none), (.DOWN, none)]).nodes p1ex.id ≤ p1ex.max_nodes :=
  (scale_bounds_invariant okGateway c1w p1ex (by decide) (by decide)
    (by decide) (by decide)).1 [(.UP, none), (.DOWN, none)]

/-- C2: manually created nodes (policy = none) are never counted in any
owned total, are never the selected DOWN candidate, and the manual part
of the inventory is invariant under arbitrary signal sequences; in the
concrete scenario with 1 manual node and policy(min=0, max=2), two UPs
give 3 nodes of which 2 are owned, and three DOWNs leave exactly the
manual node. -/
theorem manual_nodes_invisible :
    (∀ nodes pid, countOwned nodes pid =
      countOwned (nodes.filter (fun n => n.policy != none)) pid) ∧
    (∀ nodes pid n, selectCandidate nodes pid = some n →
      n.policy ≠ none) ∧
    (∀ gw c sigs, Cluster.WF c →
      manualNodes (runSignals gw c sigs).nodes = manualNodes c.nodes) ∧
    (runSignals okGateway c2ex [(.UP, none), (.UP, none)]).nodes.length
      = 3 ∧
    countOwned (runSignals okGateway c2ex
      [(.UP, none), (.UP, none)]).nodes p2ex.id = 2 ∧
    (runSignals okGateway c2ex
      [(.UP, none), (.UP, none), (.DOWN, none), (.DOWN, none),
       (.DOWN, none)]).nodes = [manual0] := by
  refine ⟨?_, ?_, ?_, by decide, by decide, by decide⟩
  · intro nodes pid
    unfold countOwned
    rw [List.filter_filter]
    refine congrArg List.length ?_
    apply List.filter_congr
    intro a _
    cases ha : a.policy <;> simp [ha]
  · intro nodes pid n hsel
    have h := (selectCandidate_spec nodes pid n hsel).2.1
    simp [h]
  · intro gw c sigs hWF
    exact manualNodes_runSignals gw c hWF sigs

/-- C2, witness: the invariance part applied to the concrete cluster
`c2ex` holding one manual node. -/
theorem manual_nodes_invisible_witness :
    manualNodes (runSignals okGateway c2ex
      [(.UP, none), (.DOWN, none)]).nodes = manualNodes c2ex.nodes :=
  manual_nodes_invisible.2.2.1 okGateway c2ex
    [(.UP, none), (.DOWN, none)] (by decide)

/-- C3: while autoscale_enabled is false, every signal decides to a
no-op with reason AUTOSCALE_DISABLED, executes to the unchanged cluster,
and hence any sequence of signals leaves the cluster (inventory and
flag) unchanged — so the property persists until the flag is changed. -/
theorem autoscale_disabled_noop (gw : NodeLifecycleGateway) (c : Cluster)
    (h : c.autoscale_enabled = false) :
    (∀ dir z, decideScale c dir z = .noop .AUTOSCALE_DISABLED ∧
      scaleSignal gw c dir z = (c, .notApplied .AUTOSCALE_DISABLED)) ∧
    ∀ sigs, runSignals gw c sigs = c :=
  ⟨fun dir z => ⟨decideScale_disabled dir z h,
    scaleSignal_disabled gw c dir z h⟩,
   fun sigs => runSignals_disabled gw c h sigs⟩

/-- C3, witness: the theorem applied to the deactivated cluster `c3w`. -/
theorem autoscale_disabled_noop_witness :
    decideScale c3w .UP none = .noop .AUTOSCALE_DISABLED ∧
    runSignals okGateway c3w
      [(.UP, none), (.DOWN, none), (.UP, some "us-east-1c")] = c3w :=
  ⟨((autoscale_disabled_noop okGateway c3w rfl).1 .UP none).1,
   (autoscale_disabled_noop okGateway c3w rfl).2 _⟩

/-- C4: zone resolution picks the exact-zone policy when one exists,
else the unzoned default when one exists, else no policy — in which case
an enabled cluster decides a NO_MATCHING_POLICY no-op; a null-zone
signal resolves to the unzoned default policy when one exists and
otherwise hits NO_MATCHING_POLICY the same way; and a signal resolved to
one policy never changes the owned count of any other policy of a
well-formed cluster. -/
theorem zone_resolution_correct :
    (∀ ps (z : String) p, p ∈ ps → p.zone = some z →
      ∃ q, resolvePolicy ps (some z) = some q ∧ q.zone = some z) ∧
    (∀ ps (z : String), (∀ p ∈ ps, p.zone ≠ some z) →
      ∀ u ∈ ps, u.zone = none →
        ∃ q, resolvePolicy ps (some z) = some q ∧ q.zone = none) ∧
    (∀ ps, ∀ u ∈ ps, u.zone = none →
      ∃ q, resolvePolicy ps none = some q ∧ q.zone = none) ∧
    (∀ c dir, c.autoscale_enabled = true →
      (∀ p ∈ c.policies, p.zone ≠ none) →
      decideScale c dir none = .noop .NO_MATCHING_POLICY) ∧
    (∀ c dir (z : String), c.autoscale_enabled = true →
      (∀ p ∈ c.policies, p.zone ≠ some z ∧ p.zone ≠ none) →
      decideScale c dir (some z) = .noop .NO_MATCHING_POLICY) ∧
    (∀ gw c dir z p q, Cluster.WF c →
      resolvePolicy c.policies z = some p →
      q ∈ c.policies → q ≠ p →
      countOwned (scaleSignal gw c dir z).1.nodes q.id =
        countOwned c.nodes q.id) := by
  refine ⟨?_, ?_, ?_, ?_, ?_, ?_⟩
  · intro ps z p hp hz
    exact resolvePolicy_exact p hp hz
  · intro ps z hnone u hu huz
    exact resolvePolicy_default hnone u hu huz
  · intro ps u hu huz
    exact resolvePolicy_unzoned u hu huz
  · intro c dir he h
    exact decideScale_no_policy dir he (resolvePolicy_none_no_unzoned h)
  · intro c dir z he h
    exact decideScale_no_policy dir he (resolvePolicy_no_match h)
  · intro gw c dir z p q hWF hres hq hne
    exact countOwned_scaleSignal_other gw c dir z hWF p hres q hq hne

/-- C4, witness: the six parts applied to the concrete policy sets of
the zone-group test — policies for zones none and us-east-1c, signals
for none, us-east-1c and us-east-1d — and cross-zone isolation on
`czones`. -/
theorem zone_resolution_correct_witness :
    (∃ q, resolvePolicy [pZc, p1ex] (some "us-east-1c") = some q ∧
      q.zone = some "us-east-1c") ∧
    (∃ q, resolvePolicy [pZc, p1ex] (some "us-east-1d") = some q ∧
      q.zone = none) ∧
    (∃ q, resolvePolicy [pZc, p1ex] none = some q ∧ q.zone = none) ∧
    decideScale czonly .UP none = .noop .NO_MATCHING_POLICY ∧
    decideScale czonly .UP (some "us-east-1d")
      = .noop .NO_MATCHING_POLICY ∧
    countOwned
        (scaleSignal okGateway czones .UP (some "us-east-1c")).1.nodes
        p1ex.id
      = countOwned czones.nodes p1ex.id :=
  ⟨zone_resolution_correct.1 [pZc, p1ex] "us-east-1c" pZc (by decide) rfl,
   zone_resolution_correct.2.1 [pZc, p1ex] "us-east-1d" (by decide) p1ex
     (by decide) rfl,
   zone_resolution_correct.2.2.1 [pZc, p1ex] p1ex (by decide) rfl,
   zone_resolution_correct.2.2.2.1 czonly .UP rfl (by decide),
   zone_resolution_correct.2.2.2.2.1 czonly .UP "us-east-1d" rfl
     (by decide),
   zone_resolution_correct.2.2.2.2.2 okGateway czones .UP
     (some "us-east-1c") pZc p1ex (by decide) (by decide) (by decide)
     (by decide)⟩

/-- C6: whenever a DOWN signal is routed to a resolved policy with
strictly more owned nodes than min_nodes, the decision deletes exactly
one node owned by that policy, and the chosen candidate is
most-recently-created among the owned nodes (LIFO). -/
theorem down_selects_lifo (c : Cluster) (z : Option String)
    (p : AutoscalerPolicy) (he : c.autoscale_enabled = true)
    (hres : resolvePolicy c.policies z = some p)
    (hgt : p.min_nodes < countOwned c.nodes p.id) :
    ∃ n, n ∈ c.nodes ∧ n.policy = some p.id ∧
      decideScale c .DOWN z = .delete n.id ∧
      ∀ m ∈ c.nodes, m.policy = some p.id →
        m.created_at ≤ n.created_at := by
  obtain ⟨n, hsel⟩ := selectCandidate_isSome c.nodes p.id (by omega)
  obtain ⟨hmem, hpol, hmax⟩ := selectCandidate_spec _ _ _ hsel
  exact ⟨n, hmem, hpol, decideScale_down_delete he hres hgt hsel, hmax⟩

/-- C6, witness: on `c6w`, owning `nodeT1` (created at 1) and `nodeT2`
(created at 2), the theorem applies and the DOWN decision concretely
deletes `nodeT2`, the node created at the later time. -/
theorem down_selects_lifo_witness :
    (∃ n, n ∈ c6w.nodes ∧ n.policy = some p2ex.id ∧
      decideScale c6w .DOWN none = .delete n.id ∧
      ∀ m ∈ c6w.nodes, m.policy = some p2ex.id →
        m.created_at ≤ n.created_at) ∧
    decideScale c6w .DOWN none = .delete nodeT2.id :=
  ⟨down_selects_lifo c6w none p2ex rfl (by decide) (by decide),
   by decide⟩

/-- C7: executing a CREATE decision is atomic — when the gateway
provision call fails, the cluster is returned exactly as it was with a
PROVISIONING_ERROR result (no node row inserted, nothing retried); when
it succeeds, exactly one node is appended, in PENDING state and tagged
with the deciding policy, and the result reports its id. -/
theorem create_execution_atomic (gw : NodeLifecycleGateway) (c : Cluster)
    (pid : Nat) (vt : String) (z : Option String) :
    (gw.provision vt z = none →
      execute gw c (.create pid vt z) = (c, .provisioningError)) ∧
    (∀ bid, gw.provision vt z = some bid →
      ∃ n, (execute gw c (.create pid vt z)).1.nodes = c.nodes ++ [n] ∧
        n.state = .PENDING ∧ n.policy = some pid ∧
        (execute gw c (.create pid vt z)).2 = .created n.id) := by
  constructor
  · intro h
    simp [execute, h]
  · intro bid h
    refine ⟨{ id := c.next_id, policy := some pid, vm_type := vt
              zone := z, state := .PENDING, created_at := c.next_id },
      ?_, rfl, rfl, ?_⟩ <;> simp [execute, h]

/-- C7, witness: the theorem applied to `c1ex` under a failing gateway
and the always-succeeding gateway. -/
theorem create_execution_atomic_witness :
    execute failGateway c1ex (.create 1 "m1.medium" none)
      = (c1ex, .provisioningError) ∧
    ∃ n, (execute okGateway c1ex (.create 1 "m1.medium" none)).1.nodes
        = c1ex.nodes ++ [n] ∧
      n.state = .PENDING ∧ n.policy = some 1 ∧
      (execute okGateway c1ex (.create 1 "m1.medium" none)).2
        = .created n.id :=
  ⟨(create_execution_atomic failGateway c1ex 1 "m1.medium" none).1 rfl,
   (create_execution_atomic okGateway c1ex 1 "m1.medium" none).2 0 rfl⟩

/-- C8: an AT_MAX UP no-op is idempotent — with the cluster enabled, the
signal zone resolving to a policy already at or above max_nodes, one UP
signal returns the unchanged cluster with an AT_MAX no-op, any number of
repetitions leaves the cluster unchanged, and the decision after any
number of repetitions is still the same AT_MAX no-op. -/
theorem at_max_idempotent (gw : NodeLifecycleGateway) (c : Cluster)
    (z : Option String) (p : AutoscalerPolicy)
    (he : c.autoscale_enabled = true)
    (hres : resolvePolicy c.policies z = some p)
    (hmax : p.max_nodes ≤ countOwned c.nodes p.id) :
    scaleSignal gw c .UP z = (c, .notApplied .AT_MAX) ∧
    (∀ k, runSignals gw c (List.replicate k (.UP, z)) = c) ∧
    (∀ k, scaleSignal gw
        (runSignals gw c (List.replicate k (.UP, z))) .UP z
      = (c, .notApplied .AT_MAX)) := by
  refine ⟨scaleSignal_at_max gw c z p he hres hmax,
    fun k => runSignals_at_max gw c z p he hres hmax k, fun k => ?_⟩
  rw [runSignals_at_max gw c z p he hres hmax k]
  exact scaleSignal_at_max gw c z p he hres hmax

/-- C8, witness: the theorem applied to `c6w`, which is exactly at its
max bound of 2 owned nodes, repeated three times. -/
theorem at_max_idempotent_witness :
    scaleSignal okGateway c6w .UP none = (c6w, .notApplied .AT_MAX) ∧
    runSignals okGateway c6w (List.replicate 3 (.UP, none)) = c6w :=
  ⟨(at_max_idempotent okGateway c6w none p2ex rfl (by decide)
      (by decide)).1,
   (at_max_idempotent okGateway c6w none p2ex rfl (by decide)
      (by decide)).2.1 3⟩

/-- C5: both scale-signal viewsets forward as zone exactly the
availability_zone entry of the payload commonLabels — the label value
when present, none when the commonLabels object or the key is absent —
and the extraction rule of the two endpoints is identical. -/
theorem zone_extraction (d : PrometheusWebhookData) :
    (∀ ls z, d.commonLabels = some ls →
      ls.lookup "availability_zone" = some z →
      zoneNameUp d = some z ∧ zoneNameDown d = some z) ∧
    (d.commonLabels = none →
      zoneNameUp d = none ∧ zoneNameDown d = none) ∧
    (∀ ls, d.commonLabels = some ls →
      ls.lookup "availability_zone" = none →
      zoneNameUp d = none ∧ zoneNameDown d = none) ∧
    zoneNameUp d = zoneNameDown d := by
  refine ⟨?_, ?_, ?_, rfl⟩
  · intro ls z hcl hlk
    constructor <;> simp [zoneNameUp, zoneNameDown, hcl, hlk]
  · intro hcl
    constructor <;> simp [zoneNameUp, zoneNameDown, hcl]
  · intro ls hcl hlk
    constructor <;> simp [zoneNameUp, zoneNameDown, hcl, hlk]

/-- C5, witness: the three extraction cases on the concrete test
payloads (zone label present, commonLabels without the label, no
commonLabels). -/
theorem zone_extraction_witness :
    (zoneNameUp dZone = some "us-east-1c" ∧
      zoneNameDown dZone = some "us-east-1c") ∧
    (zoneNameUp dNoLabels = none ∧ zoneNameDown dNoLabels = none) ∧
    (zoneNameUp dNoZone = none ∧ zoneNameDown dNoZone = none) :=
  ⟨(zone_extraction dZone).1 _ "us-east-1c" rfl (by decide),
   (zone_extraction dNoLabels).2.1 rfl,
   (zone_extraction dNoZone).2.2.1 _ rfl (by decide)⟩

/-- C9: when the cluster lookup misses, both perform_create handlers
return None without invoking the scale operation: the cluster table is
returned unchanged and no execution result is produced. -/
theorem missing_cluster_noop (gw : NodeLifecycleGateway)
    (clusters : List (Nat × Cluster)) (cluster_pk : Nat)
    (d : PrometheusWebhookData)
    (h : clusters.lookup cluster_pk = none) :
    performCreateUp gw clusters cluster_pk d = (clusters, none) ∧
    performCreateDown gw clusters cluster_pk d = (clusters, none) := by
  constructor <;> simp [performCreateUp, performCreateDown, h]

/-- C9, witness: a signal for the unknown cluster id 2 against a table
holding only cluster 1. -/
theorem missing_cluster_noop_witness :
    performCreateUp okGateway [(1, c1ex)] 2 dZone = ([(1, c1ex)], none) ∧
    performCreateDown okGateway [(1, c1ex)] 2 dZone
      = ([(1, c1ex)], none) :=
  missing_cluster_noop okGateway [(1, c1ex)] 2 dZone (by decide)

/-- C10: HMNamespaceService.create raises NamespaceExists when a
namespace with the name already exists, leaving the client state
untouched (no creation call for any client behavior); otherwise it
issues the client create call and returns the result of get(namespace)
on the resulting state. -/
theorem namespace_create_guard
    (clientCreate : KubernetesClientState → String → KubernetesClientState)
    (s : KubernetesClientState) (ns : String) :
    ((∃ r, HMNamespaceService.get s ns = some r) →
      HMNamespaceService.create clientCreate s ns
        = (s, .error (.NamespaceExists ns))) ∧
    (HMNamespaceService.get s ns = none →
      HMNamespaceService.create clientCreate s ns
        = (clientCreate s ns,
           .ok (HMNamespaceService.get (clientCreate s ns) ns))) := by
  constructor
  · rintro ⟨r, hr⟩
    simp [HMNamespaceService.create, hr]
  · intro h
    simp [HMNamespaceService.create, h]

/-- C10, witness: the guard on a state already holding namespace galaxy
and the creation path on the empty state, with the record-appending
client. -/
theorem namespace_create_guard_witness :
    HMNamespaceService.create clientCreateNamespace sHas "galaxy"
      = (sHas, .error (.NamespaceExists "galaxy")) ∧
    HMNamespaceService.create clientCreateNamespace sEmpty "galaxy"
      = (clientCreateNamespace sEmpty "galaxy",
         .ok (HMNamespaceService.get
           (clientCreateNamespace sEmpty "galaxy") "galaxy")) :=
  ⟨(namespace_create_guard clientCreateNamespace sHas "galaxy").1
      ⟨nsGalaxy, by decide⟩,
   (namespace_create_guard clientCreateNamespace sEmpty "galaxy").2
      (by decide)⟩

end Cloudman
